import Mathlib

/-!
Shallow embedding of the core data pipeline of `app.py` (leet-code-agent):
the normalizer (`normalise_sequence`, `normalise_mcp_problem`), the
aggregator (`build_category_summary`, `build_pattern_summary`) and the
query engine (`answer_question`), together with theorems settling the
specification claims about them.

Python dynamic values are modelled by the `Value` inductive; machine-level
details that the code never relies on (floats, Unicode case folding beyond
ASCII, hash ordering) are modelled by their ASCII / insertion-order
behaviour, which is what the data in this repository exercises.
-/

/-- A Python value as used by the JSON-shaped records of `app.py`:
`None`, booleans, integers, strings, lists and string-keyed dicts
(insertion-ordered, as in Python 3.7+). -/
inductive Value where
  | none : Value
  | bool : Bool → Value
  | int : Int → Value
  | str : String → Value
  | list : List Value → Value
  | dict : List (String × Value) → Value

/-- First-match association-list lookup, the semantics of a Python dict
probe `d[k]` / `d.get(k)` on an insertion-ordered dict with unique keys. -/
def alookup (k : String) : List (String × α) → Option α
  | [] => Option.none
  | (k₁, v) :: rest => if k₁ = k then some v else alookup k rest

/-- Python truthiness (`bool(v)`) for the modelled values. -/
def Value.truthy : Value → Bool
  | .none => false
  | .bool b => b
  | .int n => n != 0
  | .str s => !s.isEmpty
  | .list l => !l.isEmpty
  | .dict d => !d.isEmpty

/-- Python `a or b`: `a` if truthy, else `b`. -/
def pyOr (a b : Value) : Value := if a.truthy then a else b

/-- Python `entry.get(k)`: the stored value, or `None` when the key is
absent.  (Only ever applied to dicts in the embedded code.) -/
def Value.get (v : Value) (k : String) : Value :=
  match v with
  | .dict pairs => (alookup k pairs).getD .none
  | _ => .none

mutual
/-- Python `repr` for the modelled values (ASCII, single-quoted strings). -/
def pyRepr : Value → String
  | .none => "None"
  | .bool b => cond b "True" "False"
  | .int n => toString n
  | .str s => "'" ++ s ++ "'"
  | .list l => "[" ++ String.intercalate ", " (pyReprList l) ++ "]"
  | .dict d => "\x7b" ++ String.intercalate ", " (pyReprPairs d) ++ "\x7d"

def pyReprList : List Value → List String
  | [] => []
  | v :: rest => pyRepr v :: pyReprList rest

def pyReprPairs : List (String × Value) → List String
  | [] => []
  | (k, v) :: rest => ("'" ++ k ++ "': " ++ pyRepr v) :: pyReprPairs rest
end

/-- Python `str(v)`: identical to `repr` except on strings themselves. -/
def pyStr : Value → String
  | .str s => s
  | v => pyRepr v

/-- ASCII whitespace, the characters stripped by `str.strip()` on the
ASCII data this code handles. -/
def pyIsSpace (c : Char) : Bool :=
  c = ' ' || c = '\t' || c = '\n' || c = '\r' || c = Char.ofNat 11 || c = Char.ofNat 12

/-- Python `str.strip()` on the character list of a string. -/
def pyStripChars (s : List Char) : List Char :=
  (((s.dropWhile pyIsSpace).reverse).dropWhile pyIsSpace).reverse

/-- Python `str.lower()` (ASCII case folding). -/
def pyLowerStr (s : String) : String :=
  String.mk (s.toList.map Char.toLower)

/-- The normalisation `question.strip().lower()` applied to the incoming
question text in `answer_question`. -/
def pyStripLower (s : String) : String :=
  pyLowerStr (String.mk (pyStripChars s.toList))

/-- Contiguous-substring test on character lists (Python `needle in hay`). -/
def isSubstr (n : List Char) : List Char → Bool
  | [] => n.isEmpty
  | c :: t => n.isPrefixOf (c :: t) || isSubstr n t

/-- Python `needle in hay` on strings. -/
def inStr (needle hay : String) : Bool :=
  isSubstr needle.toList hay.toList

/-- Embeds `normalise_sequence` of `app.py`: coerce a loosely-typed field to a
list of strings (falsy value → `[]`, string → singleton, dict → stringified
truthy values, list → stringified truthy items, anything else → `[]`). -/
def normalise_sequence (value : Value) : List String :=
  if !value.truthy then []
  else match value with
    | .str s => [s]
    | .dict d => ((d.map Prod.snd).filter Value.truthy).map pyStr
    | .list l => (l.filter Value.truthy).map pyStr
    | _ => []

/-- The record returned by `normalise_mcp_problem`: field values keep the
dynamic `Value` type the Python code gives them (`topic`, `patterns` and
`key_steps` are always built as strings by `normalise_sequence`). -/
structure NormProblem where
  id : Value
  title : Value
  url : Value
  difficulty : Value
  topic : String
  patterns : List String
  summary : Value
  key_steps : List String

/-- Embeds `normalise_mcp_problem` of `app.py`: convert one raw record into the
canonical problem record, or `none` when the record is rejected. -/
def normalise_mcp_problem (entry : Value) : Option NormProblem :=
  match entry with
  | .dict _ =>
    let problem_id := pyOr (entry.get "id") (pyOr (entry.get "questionId") (entry.get "frontendQuestionId"))
    let slug := pyOr (entry.get "slug") (entry.get "titleSlug")
    let title := pyOr (entry.get "title") (pyOr (entry.get "name") (entry.get "question"))
    let url0 := entry.get "url"
    let url := if !url0.truthy && slug.truthy
      then Value.str ("https://leetcode.com/problems/" ++ pyStr slug ++ "/")
      else url0
    if !title.truthy || !url.truthy then Option.none
    else
      let topics := normalise_sequence
        (pyOr (entry.get "topic") (pyOr (entry.get "topics")
          (pyOr (entry.get "category") (pyOr (entry.get "categoryTags") (entry.get "tags")))))
      let patterns := normalise_sequence
        (pyOr (entry.get "patterns") (pyOr (entry.get "patternTags")
          (pyOr (entry.get "techniques") (entry.get "strategies"))))
      let summary := pyOr (entry.get "summary") (pyOr (entry.get "synopsis")
        (pyOr (entry.get "description") (pyOr (entry.get "shortDescription")
          (Value.str "Generated from leetcode-mcp-server data."))))
      let hints := normalise_sequence
        (pyOr (entry.get "key_steps") (pyOr (entry.get "hints") (entry.get "solutionOutline")))
      some
        { id := pyOr problem_id (pyOr slug title)
          title := title
          url := url
          difficulty := pyOr (entry.get "difficulty")
            (pyOr (entry.get "level") (pyOr (entry.get "difficultyLevel") (Value.str "Unknown")))
          topic := match topics with | t :: _ => t | [] => "General"
          patterns := if patterns.isEmpty then ["General Strategy"] else patterns
          summary := summary
          key_steps := hints }
  | _ => Option.none

/-- The accepted-records loop of `fetch_problems_from_mcp`: normalise each
raw record and keep the accepted ones, in order.  (The Python guard
`if normalised:` tests the truthiness of the returned dict, which is
always non-empty, so it is exactly a `none` filter.) -/
def normaliseAll (raws : List Value) : List NormProblem :=
  raws.filterMap normalise_mcp_problem

/-- The canonical problem record consumed by the aggregator and query
engine (§3 of the spec): all fields are strings, `patterns` a list of
pattern names. -/
structure CanonProblem where
  id : String
  title : String
  url : String
  difficulty : String
  topic : String
  patterns : List String
  summary : String
  key_steps : List String
deriving DecidableEq, Repr

/-- One increment of a `collections.Counter`: bump the count of `k`,
appending a fresh key at the end (first-seen order). -/
def counterAdd (c : List (String × Nat)) (k : String) : List (String × Nat) :=
  match c with
  | [] => [(k, 1)]
  | (k₁, n) :: rest => if k₁ = k then (k₁, n + 1) :: rest else (k₁, n) :: counterAdd rest k

/-- Python `Counter.update(iterable)`: one increment per occurrence. -/
def counterUpdate (c : List (String × Nat)) (ks : List String) : List (String × Nat) :=
  ks.foldl counterAdd c

/-- Stable insertion used to model Python `sorted`: place `x` before the
first element `y` with `le x y`. -/
def pyInsert (le : α → α → Bool) (x : α) : List α → List α
  | [] => [x]
  | y :: ys => if le x y then x :: y :: ys else y :: pyInsert le x ys

/-- Python `sorted` (a stable sort): `le x y` means `x` may precede `y`;
for a (pre)order expressed as `le`, equal elements keep their input
order.  `sorted(..., reverse=True)` is modelled by flipping `le`. -/
def pySorted (le : α → α → Bool) (l : List α) : List α :=
  l.foldr (pyInsert le) []


/-- Per-topic entry of the category summary: total `count`, difficulty
histogram and pattern histogram (Counters, modelled as insertion-ordered
association lists). -/
structure CatEntry where
  count : Nat
  difficulties : List (String × Nat)
  patterns : List (String × Nat)
deriving DecidableEq, Repr

/-- One loop iteration of `build_category_summary`: `setdefault` the
topic entry (fresh entries are appended at the end, first-seen order)
and bump its tallies. -/
def catInsert (cats : List (String × CatEntry)) (p : CanonProblem) : List (String × CatEntry) :=
  match cats with
  | [] => [(p.topic,
      { count := 1
        difficulties := counterAdd [] p.difficulty
        patterns := counterUpdate [] p.patterns })]
  | (t, e) :: rest =>
    if t = p.topic then
      (t, { count := e.count + 1
            difficulties := counterAdd e.difficulties p.difficulty
            patterns := counterUpdate e.patterns p.patterns }) :: rest
    else (t, e) :: catInsert rest p

/-- Embeds `build_category_summary` of `app.py`: tally per topic, render the
difficulty Counter sorted by key, the pattern Counter by descending count
(`most_common`, stable) and the topics by descending total count
(`sorted(..., reverse=True)`, stable). -/
def build_category_summary (problems : List CanonProblem) : List (String × CatEntry) :=
  let categories := problems.foldl catInsert []
  let categories := categories.map (fun te =>
    (te.1, { te.2 with
      difficulties := pySorted (fun a b => a.1 ≤ b.1) te.2.difficulties
      patterns := pySorted (fun a b => b.2 ≤ a.2) te.2.patterns }))
  pySorted (fun a b => b.2.count ≤ a.2.count) categories

/-- The problem excerpt stored in a pattern's `examples` list. -/
structure ExampleEntry where
  id : String
  title : String
  difficulty : String
  topic : String
  url : String
  summary : String
deriving DecidableEq, Repr

/-- The excerpt `build_pattern_summary` appends for a problem. -/
def exampleOf (p : CanonProblem) : ExampleEntry :=
  { id := p.id, title := p.title, difficulty := p.difficulty
    topic := p.topic, url := p.url, summary := p.summary }

/-- Per-pattern entry while `build_pattern_summary` is tallying. -/
structure PatEntry where
  count : Nat
  topics : List (String × Nat)
  examples : List ExampleEntry
deriving DecidableEq, Repr

/-- Per-pattern entry after finalisation (`why_it_matters` added, topics
rendered by `most_common`). -/
structure PatEntryOut where
  count : Nat
  topics : List (String × Nat)
  examples : List ExampleEntry
  why_it_matters : String
deriving DecidableEq, Repr

/-- One `(problem, pattern)` step of `build_pattern_summary`: the
defaultdict materialises a zero entry on first access (appended at the
end), then count and topic tally are bumped and the problem excerpt is
appended while fewer than 5 examples are stored. -/
def patInsert (pats : List (String × PatEntry)) (p : CanonProblem) (pattern : String) :
    List (String × PatEntry) :=
  match pats with
  | [] => [(pattern,
      { count := 1
        topics := counterAdd [] p.topic
        examples := [exampleOf p] })]
  | (k, e) :: rest =>
    if k = pattern then
      (k, { count := e.count + 1
            topics := counterAdd e.topics p.topic
            examples := if e.examples.length < 5 then e.examples ++ [exampleOf p] else e.examples }) :: rest
    else (k, e) :: patInsert rest p pattern

/-- The loop body of `build_pattern_summary` for one problem: fold over
its pattern occurrences in order. -/
def patStep (pats : List (String × PatEntry)) (p : CanonProblem) : List (String × PatEntry) :=
  p.patterns.foldl (fun acc pattern => patInsert acc p pattern) pats

/-- The tallying loop of `build_pattern_summary` over all problems. -/
def buildPatternRaw (problems : List CanonProblem) : List (String × PatEntry) :=
  problems.foldl patStep []

/-- Finalisation of one pattern entry: topics rendered by `most_common`
and the `why_it_matters` sentence attached. -/
def patFinalise (e : PatEntry) : PatEntryOut :=
  { count := e.count
    topics := pySorted (fun a b => b.2 ≤ a.2) e.topics
    examples := e.examples
    why_it_matters := "Appears in " ++ toString e.count ++ " problems across "
      ++ toString e.topics.length ++ " topic(s)." }

/-- Embeds `build_pattern_summary` of `app.py`: tally per `(problem, pattern)`
occurrence, finalise each entry, and render patterns by descending count
(stable). -/
def build_pattern_summary (problems : List CanonProblem) : List (String × PatEntryOut) :=
  let patterns := buildPatternRaw problems
  let patterns := patterns.map (fun ke => (ke.1, patFinalise ke.2))
  pySorted (fun a b => b.2.count ≤ a.2.count) patterns

/-- The problem excerpt placed in `related_problems`. -/
structure RelatedEntry where
  id : String
  title : String
  difficulty : String
  topic : String
  url : String
deriving DecidableEq, Repr

/-- The excerpt `answer_question` appends to `related`. -/
def relatedOf (p : CanonProblem) : RelatedEntry :=
  { id := p.id, title := p.title, difficulty := p.difficulty
    topic := p.topic, url := p.url }

/-- The result dict of `answer_question`. -/
structure Answer where
  answer : String
  related_problems : List RelatedEntry
deriving DecidableEq, Repr

/-- The fixed guidance answer for an empty question. -/
def emptyGuidance : String :=
  "Try asking about a topic (e.g. dynamic programming) or a specific pattern (e.g. sliding window)."

/-- The fixed no-match fallback answer. -/
def noMatchFallback : String :=
  "I could not find an exact match. Try referencing a topic (array, graph) or a pattern (two pointers, dynamic programming)."

/-- The difficulty keyword table of `answer_question`. -/
def difficultyKeywords : List (String × String) :=
  [("easy", "Easy"), ("medium", "Medium"), ("hard", "Hard")]

/-- The `related` list of `answer_question` before truncation: empty for
an empty question; otherwise the topic/pattern keyword matches, or — only
when both hit lists are empty — the difficulty-keyword matches. -/
def relatedFor (question : String) (categories : List (String × CatEntry))
    (patterns : List (String × PatEntryOut)) (problems : List CanonProblem) :
    List RelatedEntry :=
  let normalized := pyStripLower question
  if normalized = "" then []
  else
    let topic_hits := (categories.map Prod.fst).filter (fun topic => inStr (pyLowerStr topic) normalized)
    let pattern_hits := (patterns.map Prod.fst).filter (fun pattern => inStr (pyLowerStr pattern) normalized)
    if !topic_hits.isEmpty || !pattern_hits.isEmpty then
      (problems.filter (fun p =>
        topic_hits.contains p.topic || p.patterns.any (fun q => pattern_hits.contains q))).map relatedOf
    else
      let difficulties := (difficultyKeywords.filter (fun kv => inStr kv.1 normalized)).map Prod.snd
      if !difficulties.isEmpty then
        (problems.filter (fun p => difficulties.contains p.difficulty)).map relatedOf
      else []

/-- Embeds `answer_question` of `app.py` for a string question: normalise the
question, collect topic/pattern keyword hits, build the related list
(`relatedFor`), and compose the answer text; the related list is
truncated to its first 8 entries. -/
def answer_question (question : String) (categories : List (String × CatEntry))
    (patterns : List (String × PatEntryOut)) (problems : List CanonProblem) : Answer :=
  let normalized := pyStripLower question
  if normalized = "" then
    { answer := emptyGuidance, related_problems := [] }
  else
    let topic_hits := (categories.map Prod.fst).filter (fun topic => inStr (pyLowerStr topic) normalized)
    let pattern_hits := (patterns.map Prod.fst).filter (fun pattern => inStr (pyLowerStr pattern) normalized)
    let related := relatedFor question categories patterns problems
    if related.isEmpty then
      { answer := noMatchFallback, related_problems := [] }
    else
      let topicParts := topic_hits.map (fun topic =>
        let data := (alookup topic categories).getD { count := 0, difficulties := [], patterns := [] }
        let pats := String.intercalate ", " ((data.patterns.map Prod.fst).take 3)
        "For " ++ topic ++ " problems, focus on "
          ++ String.intercalate ", " (data.difficulties.map Prod.fst)
          ++ ". Common patterns: "
          ++ (if pats = "" then "varied techniques" else pats) ++ ".")
      let patternParts := pattern_hits.map (fun pattern =>
        let data := (alookup pattern patterns).getD
          { count := 0, topics := [], examples := [], why_it_matters := "" }
        pattern ++ " appears in " ++ toString data.count ++ " problems across "
          ++ toString data.topics.length ++ " topic(s). Practice with examples like "
          ++ String.intercalate ", " ((data.examples.take 2).map ExampleEntry.title) ++ ".")
      let summaryParts := topicParts ++ patternParts
      let summaryParts := if summaryParts.isEmpty then
          ["Here are problems matching your query. Consider refining the question with a topic or pattern keyword for deeper insights."]
        else summaryParts
      { answer := String.intercalate " " summaryParts, related_problems := related.take 8 }

/-- Runs `answer_question` under Python dynamic typing: the very first
statement is `question.strip()`, which raises `AttributeError` unless the
question value is a string. -/
def answerQuestionDyn (question : Value) (categories : List (String × CatEntry))
    (patterns : List (String × PatEntryOut)) (problems : List CanonProblem) :
    Except String Answer :=
  match question with
  | .str s => .ok (answer_question s categories patterns problems)
  | _ => .error "AttributeError"

/-! ### Derived definitions used by the claim statements -/

/-- Sum of the per-topic counts in a category table. -/
def catCountSum (cats : List (String × CatEntry)) : Nat :=
  (cats.map (fun te => te.2.count)).sum

/-- Sum of the per-pattern counts in a pattern table. -/
def patCountSum (pats : List (String × PatEntry)) : Nat :=
  (pats.map (fun ke => ke.2.count)).sum

/-- The examples stored for key `k`, empty when the key is absent. -/
def exLookup (k : String) (pats : List (String × PatEntry)) : List ExampleEntry :=
  ((alookup k pats).map PatEntry.examples).getD []

/-- The count stored for key `k`, zero when the key is absent. -/
def cntLookup (k : String) (pats : List (String × PatEntry)) : Nat :=
  ((alookup k pats).map PatEntry.count).getD 0

/-- The `(pattern, problem)` occurrence sequence that the
`build_pattern_summary` loops traverse, in traversal order. -/
def patPairs (problems : List CanonProblem) : List (String × CanonProblem) :=
  problems.flatMap (fun p => p.patterns.map (fun k => (k, p)))

/-- The example excerpts a pattern-pair sequence contributes to key `k`. -/
def pairExamples (k : String) (ps : List (String × CanonProblem)) : List ExampleEntry :=
  (ps.filter (fun kp => kp.1 = k)).map (fun kp => exampleOf kp.2)

/-- The full (uncapped) example list for pattern `k`: one excerpt per
occurrence of `k` in a problem's pattern list, in input problem order. -/
def patternExamplesFull (k : String) (problems : List CanonProblem) : List ExampleEntry :=
  problems.flatMap (fun p => (p.patterns.filter (fun q => q = k)).map (fun _ => exampleOf p))

/-! ### General lemmas about the embedded containers -/

theorem pyInsert_perm (le : α → α → Bool) (x : α) (l : List α) :
    (pyInsert le x l).Perm (x :: l) := by
  induction l with
  | nil => simp [pyInsert]
  | cons y ys ih =>
    by_cases h : le x y = true
    · simp [pyInsert, h]
    · simp only [pyInsert, h, Bool.false_eq_true, if_false]
      exact (ih.cons y).trans (List.Perm.swap x y ys)

theorem pySorted_perm (le : α → α → Bool) (l : List α) : (pySorted le l).Perm l := by
  induction l with
  | nil => simp [pySorted]
  | cons x xs ih =>
    have : pySorted le (x :: xs) = pyInsert le x (pySorted le xs) := rfl
    rw [this]
    exact (pyInsert_perm le x (pySorted le xs)).trans (List.Perm.cons x ih)

theorem alookup_eq_none_iff (k : String) (l : List (String × α)) :
    alookup k l = Option.none ↔ k ∉ l.map Prod.fst := by
  induction l with
  | nil => simp [alookup]
  | cons kv rest ih =>
    obtain ⟨k₁, v⟩ := kv
    by_cases h : k₁ = k
    · subst h
      simp [alookup]
    · simp only [alookup, if_neg h, List.map_cons, List.mem_cons, ih]
      constructor
      · rintro hn (he | hm)
        · exact h he.symm
        · exact hn hm
      · intro hn hm
        exact hn (Or.inr hm)

theorem alookup_mem {k : String} {l : List (String × α)} {v : α}
    (h : alookup k l = some v) : (k, v) ∈ l := by
  induction l with
  | nil => simp [alookup] at h
  | cons kv rest ih =>
    obtain ⟨k₁, v₁⟩ := kv
    by_cases hk : k₁ = k
    · subst hk
      simp [alookup] at h
      simp [h]
    · simp [alookup, hk] at h
      simp [ih h]

theorem mem_alookup {k : String} {l : List (String × α)} {v : α}
    (hnd : (l.map Prod.fst).Nodup) (h : (k, v) ∈ l) : alookup k l = some v := by
  induction l with
  | nil => simp at h
  | cons kv rest ih =>
    obtain ⟨k₁, v₁⟩ := kv
    simp only [List.map_cons, List.nodup_cons] at hnd
    rcases List.mem_cons.mp h with h₁ | h₁
    · injection h₁ with hk hv
      subst hk
      subst hv
      simp [alookup]
    · have hk : k₁ ≠ k := by
        intro he
        exact hnd.1 (he ▸ (List.mem_map.mpr ⟨(k, v), h₁, rfl⟩))
      simp [alookup, hk, ih hnd.2 h₁]

theorem alookup_perm {l₁ l₂ : List (String × α)} (k : String)
    (hnd : (l₁.map Prod.fst).Nodup) (hp : l₁.Perm l₂) :
    alookup k l₁ = alookup k l₂ := by
  have hnd₂ : (l₂.map Prod.fst).Nodup := (hp.map Prod.fst).nodup_iff.mp hnd
  cases h : alookup k l₁ with
  | none =>
    rw [alookup_eq_none_iff] at h
    have : k ∉ l₂.map Prod.fst := fun hm => h ((hp.map Prod.fst).mem_iff.mpr hm)
    exact ((alookup_eq_none_iff k l₂).mpr this).symm
  | some v =>
    exact (mem_alookup hnd₂ (hp.mem_iff.mp (alookup_mem h))).symm

theorem alookup_mapSnd (k : String) (f : α → β) (l : List (String × α)) :
    alookup k (l.map (fun ke => (ke.1, f ke.2))) = (alookup k l).map f := by
  induction l with
  | nil => simp [alookup]
  | cons kv rest ih =>
    obtain ⟨k₁, v⟩ := kv
    by_cases h : k₁ = k <;> simp [alookup, h, ih]

/-! ### Count totals of the two aggregation folds -/

theorem catInsert_countSum (cats : List (String × CatEntry)) (p : CanonProblem) :
    catCountSum (catInsert cats p) = catCountSum cats + 1 := by
  induction cats with
  | nil => simp [catInsert, catCountSum]
  | cons te rest ih =>
    obtain ⟨t, e⟩ := te
    by_cases h : t = p.topic
    · simp [catInsert, h, catCountSum]
      omega
    · simp only [catInsert, if_neg h]
      simp [catCountSum] at ih ⊢
      omega

theorem foldl_catInsert_countSum (problems : List CanonProblem)
    (cats : List (String × CatEntry)) :
    catCountSum (problems.foldl catInsert cats) = catCountSum cats + problems.length := by
  induction problems generalizing cats with
  | nil => simp
  | cons p rest ih =>
    simp only [List.foldl_cons, ih, catInsert_countSum, List.length_cons]
    omega

theorem patInsert_countSum (pats : List (String × PatEntry)) (p : CanonProblem) (k : String) :
    patCountSum (patInsert pats p k) = patCountSum pats + 1 := by
  induction pats with
  | nil => simp [patInsert, patCountSum]
  | cons ke rest ih =>
    obtain ⟨k₁, e⟩ := ke
    by_cases h : k₁ = k
    · simp [patInsert, h, patCountSum]
      omega
    · simp only [patInsert, if_neg h]
      simp [patCountSum] at ih ⊢
      omega

theorem patStep_countSum (pats : List (String × PatEntry)) (p : CanonProblem) :
    patCountSum (patStep pats p) = patCountSum pats + p.patterns.length := by
  show patCountSum (p.patterns.foldl (fun acc pattern => patInsert acc p pattern) pats) = _
  induction p.patterns generalizing pats with
  | nil => simp
  | cons k rest ih =>
    simp only [List.foldl_cons, ih, patInsert_countSum, List.length_cons]
    omega

theorem buildPatternRaw_countSum (problems : List CanonProblem) :
    patCountSum (buildPatternRaw problems) = (problems.map (fun p => p.patterns.length)).sum := by
  show patCountSum (problems.foldl patStep []) = _
  have h : ∀ (pats : List (String × PatEntry)),
      patCountSum (problems.foldl patStep pats)
        = patCountSum pats + (problems.map (fun p => p.patterns.length)).sum := by
    induction problems with
    | nil => simp
    | cons p rest ih =>
      intro pats
      simp only [List.foldl_cons, ih, patStep_countSum, List.map_cons, List.sum_cons]
      omega
  simpa [patCountSum] using h []

theorem foldl_flatMap (g : β → γ → β) (f : α → List γ) (l : List α) (init : β) :
    (l.flatMap f).foldl g init = l.foldl (fun acc a => (f a).foldl g acc) init := by
  induction l generalizing init with
  | nil => rfl
  | cons a rest ih => simp [List.flatMap_cons, List.foldl_append, ih]

theorem buildPatternRaw_eq_pairs (problems : List CanonProblem) :
    buildPatternRaw problems
      = (patPairs problems).foldl (fun acc kp => patInsert acc kp.2 kp.1) [] := by
  show problems.foldl patStep [] = _
  rw [patPairs, foldl_flatMap]
  congr 1
  funext acc p
  show patStep acc p = _
  rw [patStep, List.foldl_map]

theorem keys_patInsert (pats : List (String × PatEntry)) (p : CanonProblem) (k : String) :
    (patInsert pats p k).map Prod.fst
      = if k ∈ pats.map Prod.fst then pats.map Prod.fst else pats.map Prod.fst ++ [k] := by
  induction pats with
  | nil => simp [patInsert]
  | cons ke rest ih =>
    obtain ⟨k₁, e⟩ := ke
    by_cases h : k₁ = k
    · subst h
      simp [patInsert]
    · simp only [patInsert, if_neg h, List.map_cons, ih, List.mem_cons]
      by_cases hm : k ∈ rest.map Prod.fst
      · simp [hm, Ne.symm h]
      · simp [hm, Ne.symm h]

theorem nodup_keys_patInsert {pats : List (String × PatEntry)} (p : CanonProblem) (k : String)
    (h : (pats.map Prod.fst).Nodup) : ((patInsert pats p k).map Prod.fst).Nodup := by
  rw [keys_patInsert]
  by_cases hm : k ∈ pats.map Prod.fst
  · simpa [hm] using h
  · simpa [hm, List.nodup_append] using h

theorem nodup_keys_buildPatternRaw (problems : List CanonProblem) :
    ((buildPatternRaw problems).map Prod.fst).Nodup := by
  rw [buildPatternRaw_eq_pairs]
  have h : ∀ (ps : List (String × CanonProblem)) (acc : List (String × PatEntry)),
      (acc.map Prod.fst).Nodup →
      ((ps.foldl (fun acc kp => patInsert acc kp.2 kp.1) acc).map Prod.fst).Nodup := by
    intro ps
    induction ps with
    | nil => intro acc hacc; simpa using hacc
    | cons kp rest ih =>
      intro acc hacc
      exact ih _ (nodup_keys_patInsert kp.2 kp.1 hacc)
  exact h _ [] (by simp)

theorem exLookup_patInsert (pats : List (String × PatEntry)) (p : CanonProblem) (k k₁ : String) :
    exLookup k (patInsert pats p k₁)
      = if k₁ = k then
          (if (exLookup k pats).length < 5 then exLookup k pats ++ [exampleOf p] else exLookup k pats)
        else exLookup k pats := by
  induction pats with
  | nil =>
    by_cases h : k₁ = k <;> simp [patInsert, exLookup, alookup, h]
  | cons ke rest ih =>
    obtain ⟨k₂, e⟩ := ke
    by_cases h₂ : k₂ = k₁
    · subst h₂
      by_cases h : k₂ = k <;> simp [patInsert, exLookup, alookup, h]
    · by_cases h : k₂ = k
      · subst h
        simp [patInsert, if_neg h₂, exLookup, alookup, Ne.symm h₂]
      · simp only [patInsert, if_neg h₂]
        simpa [exLookup, alookup, if_neg h] using ih

theorem cntLookup_patInsert (pats : List (String × PatEntry)) (p : CanonProblem) (k k₁ : String) :
    cntLookup k (patInsert pats p k₁)
      = if k₁ = k then cntLookup k pats + 1 else cntLookup k pats := by
  induction pats with
  | nil =>
    by_cases h : k₁ = k <;> simp [patInsert, cntLookup, alookup, h]
  | cons ke rest ih =>
    obtain ⟨k₂, e⟩ := ke
    by_cases h₂ : k₂ = k₁
    · subst h₂
      by_cases h : k₂ = k <;> simp [patInsert, cntLookup, alookup, h]
    · by_cases h : k₂ = k
      · subst h
        simp [patInsert, if_neg h₂, cntLookup, alookup, Ne.symm h₂]
      · simp only [patInsert, if_neg h₂]
        simpa [cntLookup, alookup, if_neg h] using ih

theorem take5_snoc (pre : List ExampleEntry) (e : ExampleEntry) :
    (if (pre.take 5).length < 5 then pre.take 5 ++ [e] else pre.take 5)
      = (pre ++ [e]).take 5 := by
  by_cases h : pre.length < 5
  · have h₁ : pre.take 5 = pre := List.take_of_length_le (by omega)
    have h₂ : (pre ++ [e]).take 5 = pre ++ [e] :=
      List.take_of_length_le (by simp; omega)
    simp [h₁, h₂, List.length_take]
    omega
  · have h₁ : (pre ++ [e]).take 5 = pre.take 5 :=
      List.take_append_of_le_length (by omega)
    simp [h₁, List.length_take]
    omega

theorem exLookup_fold (k : String) (ps : List (String × CanonProblem)) :
    ∀ (acc : List (String × PatEntry)) (pre : List ExampleEntry),
      exLookup k acc = pre.take 5 →
      exLookup k (ps.foldl (fun acc kp => patInsert acc kp.2 kp.1) acc)
        = (pre ++ pairExamples k ps).take 5 := by
  induction ps with
  | nil => intro acc pre h; simpa [pairExamples] using h
  | cons kp rest ih =>
    intro acc pre h
    obtain ⟨k₁, p⟩ := kp
    by_cases hk : k₁ = k
    · have hstep : exLookup k (patInsert acc p k₁) = (pre ++ [exampleOf p]).take 5 := by
        rw [exLookup_patInsert, if_pos hk, h, take5_snoc]
      have hrec := ih (patInsert acc p k₁) (pre ++ [exampleOf p]) hstep
      simpa [pairExamples, List.filter_cons, hk, List.append_assoc] using hrec
    · have hstep : exLookup k (patInsert acc p k₁) = pre.take 5 := by
        rw [exLookup_patInsert, if_neg hk, h]
      have := ih (patInsert acc p k₁) pre hstep
      simpa [pairExamples, List.filter_cons, hk] using this

theorem cntLookup_fold (k : String) (ps : List (String × CanonProblem)) :
    ∀ (acc : List (String × PatEntry)),
      cntLookup k (ps.foldl (fun acc kp => patInsert acc kp.2 kp.1) acc)
        = cntLookup k acc + (ps.countP (fun kp => kp.1 = k)) := by
  induction ps with
  | nil => intro acc; simp
  | cons kp rest ih =>
    intro acc
    obtain ⟨k₁, p⟩ := kp
    by_cases hk : k₁ = k
    · subst hk
      rw [List.foldl_cons, ih, cntLookup_patInsert, if_pos rfl]
      simp [List.countP_cons]
      omega
    · rw [List.foldl_cons, ih, cntLookup_patInsert, if_neg hk]
      simp [List.countP_cons, hk]

theorem pairExamples_patPairs (k : String) (problems : List CanonProblem) :
    pairExamples k (patPairs problems) = patternExamplesFull k problems := by
  induction problems with
  | nil => simp [pairExamples, patPairs, patternExamplesFull]
  | cons p rest ih =>
    simp only [patPairs, patternExamplesFull, List.flatMap_cons] at ih ⊢
    rw [pairExamples, List.filter_append, List.map_append]
    rw [pairExamples] at ih
    rw [ih]
    congr 1
    rw [List.filter_map, List.map_map]
    rfl

theorem countP_patPairs (k : String) (problems : List CanonProblem) :
    (patPairs problems).countP (fun kp => kp.1 = k)
      = (problems.map (fun p => p.patterns.count k)).sum := by
  induction problems with
  | nil => simp [patPairs]
  | cons p rest ih =>
    simp only [patPairs, List.flatMap_cons, List.countP_append, List.map_cons, List.sum_cons]
    rw [patPairs] at ih
    rw [ih]
    congr 1
    rw [List.countP_map]
    simp [List.count, Function.comp_def]
    congr 1

theorem exLookup_buildPatternRaw (k : String) (problems : List CanonProblem) :
    exLookup k (buildPatternRaw problems) = (patternExamplesFull k problems).take 5 := by
  rw [buildPatternRaw_eq_pairs]
  have := exLookup_fold k (patPairs problems) [] [] (by simp [exLookup, alookup])
  simpa [pairExamples_patPairs] using this

theorem cntLookup_buildPatternRaw (k : String) (problems : List CanonProblem) :
    cntLookup k (buildPatternRaw problems)
      = (problems.map (fun p => p.patterns.count k)).sum := by
  rw [buildPatternRaw_eq_pairs]
  have := cntLookup_fold k (patPairs problems) []
  simpa [cntLookup, alookup, countP_patPairs] using this

theorem alookup_build_pattern_summary (k : String) (problems : List CanonProblem) :
    alookup k (build_pattern_summary problems)
      = (alookup k (buildPatternRaw problems)).map patFinalise := by
  show alookup k (pySorted _ ((buildPatternRaw problems).map (fun ke => (ke.1, patFinalise ke.2)))) = _
  have hkeys : (((buildPatternRaw problems).map (fun ke => (ke.1, patFinalise ke.2))).map Prod.fst)
      = (buildPatternRaw problems).map Prod.fst := by
    rw [List.map_map]
    rfl
  have hnd : (((buildPatternRaw problems).map (fun ke => (ke.1, patFinalise ke.2))).map Prod.fst).Nodup := by
    rw [hkeys]
    exact nodup_keys_buildPatternRaw problems
  rw [← alookup_perm k hnd (pySorted_perm _ _).symm]
  exact alookup_mapSnd k patFinalise (buildPatternRaw problems)

/-- C4: the topic counts of `build_category_summary` sum to the number of
input problems. -/
theorem category_counts_sum_to_length (problems : List CanonProblem) :
    ((build_category_summary problems).map (fun te => te.2.count)).sum = problems.length := by
  show ((pySorted _ ((problems.foldl catInsert []).map (fun te =>
    (te.1, { te.2 with
      difficulties := pySorted (fun a b => a.1 ≤ b.1) te.2.difficulties
      patterns := pySorted (fun a b => b.2 ≤ a.2) te.2.patterns })))).map (fun te => te.2.count)).sum
      = problems.length
  rw [((pySorted_perm _ _).map (fun te : String × CatEntry => te.2.count)).sum_eq]
  rw [List.map_map]
  have hcomp : ((fun te : String × CatEntry => te.2.count) ∘ (fun te : String × CatEntry =>
      (te.1, { te.2 with
        difficulties := pySorted (fun a b => a.1 ≤ b.1) te.2.difficulties
        patterns := pySorted (fun a b => b.2 ≤ a.2) te.2.patterns })))
      = fun te : String × CatEntry => te.2.count := rfl
  rw [hcomp]
  have h := foldl_catInsert_countSum problems []
  simpa [catCountSum] using h

/-- C5: the pattern counts of `build_pattern_summary` sum to the total
number of `(problem, pattern)` occurrences. -/
theorem pattern_counts_sum_to_occurrences (problems : List CanonProblem) :
    ((build_pattern_summary problems).map (fun ke => ke.2.count)).sum
      = (problems.map (fun p => p.patterns.length)).sum := by
  show ((pySorted _ ((buildPatternRaw problems).map (fun ke =>
    (ke.1, patFinalise ke.2)))).map (fun ke => ke.2.count)).sum = _
  rw [((pySorted_perm _ _).map (fun ke : String × PatEntryOut => ke.2.count)).sum_eq]
  rw [List.map_map]
  have hcomp : ((fun ke : String × PatEntryOut => ke.2.count) ∘ (fun ke : String × PatEntry =>
      (ke.1, patFinalise ke.2))) = fun ke : String × PatEntry => ke.2.count := rfl
  rw [hcomp]
  have h := buildPatternRaw_countSum problems
  simpa [patCountSum] using h

/-- C6: every `examples` list in `build_pattern_summary` has at most 5
entries; those entries are the first excerpts encountered in input order
for problems carrying the pattern (one per occurrence), and each is the
full (id, title, difficulty, topic, url, summary) excerpt of a problem
that carries the pattern. -/
theorem pattern_examples_capped (problems : List CanonProblem) (k : String) (e : PatEntryOut)
    (h : alookup k (build_pattern_summary problems) = some e) :
    e.examples.length ≤ 5
    ∧ e.examples = (patternExamplesFull k problems).take 5
    ∧ ∀ x ∈ e.examples, ∃ p, p ∈ problems ∧ k ∈ p.patterns ∧ x = exampleOf p := by
  rw [alookup_build_pattern_summary] at h
  cases hraw : alookup k (buildPatternRaw problems) with
  | none => rw [hraw] at h; simp at h
  | some e₀ =>
    rw [hraw] at h
    have hfin : patFinalise e₀ = e := by
      simpa using h
    have hex : e.examples = e₀.examples := by
      rw [← hfin]
      rfl
    have hEx0 : e₀.examples = (patternExamplesFull k problems).take 5 := by
      have hfull := exLookup_buildPatternRaw k problems
      rw [exLookup, hraw] at hfull
      simpa using hfull
    refine ⟨?_, ?_, ?_⟩
    · rw [hex, hEx0, List.length_take]
      exact min_le_left _ _
    · rw [hex, hEx0]
    · intro x hx
      rw [hex, hEx0] at hx
      have hx₁ : x ∈ patternExamplesFull k problems := List.mem_of_mem_take hx
      simp only [patternExamplesFull, List.mem_flatMap, List.mem_map, List.mem_filter] at hx₁
      obtain ⟨p, hp, q, ⟨hq, hqk⟩, hxe⟩ := hx₁
      refine ⟨p, hp, ?_, hxe.symm⟩
      have : (q = k) := by simpa using hqk
      exact this ▸ hq

/-- C6 witness: a concrete single-problem aggregate. -/
theorem pattern_examples_capped_witness :
    alookup "Hash Map" (build_pattern_summary
        [⟨"1", "Two Sum", "u", "Easy", "Array", ["Hash Map"], "s", []⟩])
      = some ⟨1, [("Array", 1)], [⟨"1", "Two Sum", "Easy", "Array", "u", "s"⟩],
          "Appears in 1 problems across 1 topic(s)."⟩
    ∧ ([(⟨"1", "Two Sum", "Easy", "Array", "u", "s"⟩ : ExampleEntry)] : List ExampleEntry).length ≤ 5 := by
  have hl : alookup "Hash Map" (build_pattern_summary
        [⟨"1", "Two Sum", "u", "Easy", "Array", ["Hash Map"], "s", []⟩])
      = some ⟨1, [("Array", 1)], [⟨"1", "Two Sum", "Easy", "Array", "u", "s"⟩],
          "Appears in 1 problems across 1 topic(s)."⟩ := by decide
  have h := pattern_examples_capped
    [⟨"1", "Two Sum", "u", "Easy", "Array", ["Hash Map"], "s", []⟩] "Hash Map"
    ⟨1, [("Array", 1)], [⟨"1", "Two Sum", "Easy", "Array", "u", "s"⟩],
      "Appears in 1 problems across 1 topic(s)."⟩ hl
  exact ⟨hl, h.1⟩

/-- C10: a duplicated pattern name in a problem's `patterns` list is
counted once per occurrence by `build_pattern_summary` and contributes one
example excerpt per occurrence (up to the cap of 5), and
`normalise_sequence` does not deduplicate a list of (non-empty) strings. -/
theorem pattern_duplicates_per_occurrence :
    (∀ (problems : List CanonProblem) (k : String) (e : PatEntryOut),
        alookup k (build_pattern_summary problems) = some e →
        e.count = (problems.map (fun p => p.patterns.count k)).sum
        ∧ e.examples = (patternExamplesFull k problems).take 5)
    ∧ ∀ (ss : List String), (∀ s ∈ ss, s ≠ "") →
        normalise_sequence (Value.list (ss.map Value.str)) = ss := by
  constructor
  · intro problems k e h
    rw [alookup_build_pattern_summary] at h
    cases hraw : alookup k (buildPatternRaw problems) with
    | none => rw [hraw] at h; simp at h
    | some e₀ =>
      rw [hraw] at h
      have hfin : patFinalise e₀ = e := by simpa using h
      constructor
      · have hcnt := cntLookup_buildPatternRaw k problems
        rw [cntLookup, hraw] at hcnt
        rw [← hfin]
        show e₀.count = _
        simpa using hcnt
      · have hfull := exLookup_buildPatternRaw k problems
        rw [exLookup, hraw] at hfull
        rw [← hfin]
        show e₀.examples = _
        simpa using hfull
  · intro ss hss
    cases ss with
    | nil => rfl
    | cons s rest =>
      have htr : (Value.list ((s :: rest).map Value.str)).truthy = true := by
        simp [Value.truthy]
      have hfit : ((s :: rest).map Value.str).filter Value.truthy = (s :: rest).map Value.str := by
        rw [List.filter_eq_self]
        intro a ha
        obtain ⟨t, ht, rfl⟩ := List.mem_map.mp ha
        have hne : t ≠ "" := hss t ht
        have hfalse : t.isEmpty = false := by
          cases hb : t.isEmpty
          · rfl
          · exact absurd ((String.isEmpty_iff t).mp hb) hne
        simp [Value.truthy, hfalse]
      show (if !(Value.list ((s :: rest).map Value.str)).truthy then [] else _) = _
      rw [htr]
      show (((s :: rest).map Value.str).filter Value.truthy).map pyStr = s :: rest
      rw [hfit, List.map_map]
      have hid : (pyStr ∘ Value.str) = id := funext (fun t => rfl)
      rw [hid, List.map_id]

/-- C10 witness: a problem listing the same pattern twice. -/
theorem pattern_duplicates_per_occurrence_witness :
    alookup "Hash Map" (build_pattern_summary
        [⟨"1", "A", "u", "Easy", "Array", ["Hash Map", "Hash Map"], "s", []⟩])
      = some ⟨2, [("Array", 2)],
          [⟨"1", "A", "Easy", "Array", "u", "s"⟩, ⟨"1", "A", "Easy", "Array", "u", "s"⟩],
          "Appears in 2 problems across 1 topic(s)."⟩
    ∧ (2 : Nat) = ([(⟨"1", "A", "u", "Easy", "Array", ["Hash Map", "Hash Map"], "s", []⟩ :
          CanonProblem)].map (fun p => p.patterns.count "Hash Map")).sum
    ∧ normalise_sequence (Value.list [Value.str "Hash Map", Value.str "Hash Map"])
        = ["Hash Map", "Hash Map"] := by
  have hl : alookup "Hash Map" (build_pattern_summary
        [⟨"1", "A", "u", "Easy", "Array", ["Hash Map", "Hash Map"], "s", []⟩])
      = some ⟨2, [("Array", 2)],
          [⟨"1", "A", "Easy", "Array", "u", "s"⟩, ⟨"1", "A", "Easy", "Array", "u", "s"⟩],
          "Appears in 2 problems across 1 topic(s)."⟩ := by decide
  have h := pattern_duplicates_per_occurrence
  have h₁ := (h.1 [⟨"1", "A", "u", "Easy", "Array", ["Hash Map", "Hash Map"], "s", []⟩]
    "Hash Map" _ hl).1
  have h₂ := h.2 ["Hash Map", "Hash Map"] (by intro s hs; simp at hs; simp [hs])
  have h₂n : normalise_sequence (Value.list [Value.str "Hash Map", Value.str "Hash Map"])
      = ["Hash Map", "Hash Map"] := by
    simpa using h₂
  exact ⟨hl, h₁, h₂n⟩

/-- C2: `answer_question` returns the first 8 entries of the (input-order)
match list, never re-ranked, so `related_problems` has at most 8 entries. -/
theorem related_problems_capped (question : String) (categories : List (String × CatEntry))
    (patterns : List (String × PatEntryOut)) (problems : List CanonProblem) :
    (answer_question question categories patterns problems).related_problems
      = (relatedFor question categories patterns problems).take 8
    ∧ (answer_question question categories patterns problems).related_problems.length ≤ 8 := by
  have h1 : (answer_question question categories patterns problems).related_problems
      = (relatedFor question categories patterns problems).take 8 := by
    by_cases h : pyStripLower question = ""
    · have hrel : relatedFor question categories patterns problems = [] := by
        simp [relatedFor, h]
      simp [answer_question, h, hrel]
    · simp only [answer_question, if_neg h]
      by_cases hr : (relatedFor question categories patterns problems).isEmpty
      · have hnil : relatedFor question categories patterns problems = [] :=
          List.isEmpty_iff.mp hr
        simp [hr, hnil]
      · simp [hr]
  refine ⟨h1, ?_⟩
  rw [h1, List.length_take]
  exact min_le_left _ _

/-- C1: for a non-empty normalised question, the topic/pattern hit lists
are exactly the summary keys whose lowercased name occurs in the
lowercased question; when a hit exists, the related list is exactly the
problems (in input order) whose topic is a topic hit or one of whose
patterns is a pattern hit; the difficulty-keyword scan is consulted only
when both hit lists are empty; and an empty related list produces the
fixed no-match fallback answer. -/
theorem query_keyword_matching (question : String) (categories : List (String × CatEntry))
    (patterns : List (String × PatEntryOut)) (problems : List CanonProblem)
    (h : pyStripLower question ≠ "") (th ph diffs : List String)
    (hth : th = (categories.map Prod.fst).filter
      (fun topic => inStr (pyLowerStr topic) (pyStripLower question)))
    (hph : ph = (patterns.map Prod.fst).filter
      (fun pattern => inStr (pyLowerStr pattern) (pyStripLower question)))
    (hdiffs : diffs = (difficultyKeywords.filter
      (fun kv => inStr kv.1 (pyStripLower question))).map Prod.snd) :
    (¬(th = [] ∧ ph = []) →
      relatedFor question categories patterns problems
        = (problems.filter (fun p =>
            th.contains p.topic || p.patterns.any (fun q => ph.contains q))).map relatedOf)
    ∧ (∀ p : CanonProblem,
        (th.contains p.topic || p.patterns.any (fun q => ph.contains q)) = true
          ↔ (p.topic ∈ th ∨ ∃ q ∈ p.patterns, q ∈ ph))
    ∧ (th = [] → ph = [] →
        relatedFor question categories patterns problems
          = if diffs = [] then []
            else (problems.filter (fun p => diffs.contains p.difficulty)).map relatedOf)
    ∧ (relatedFor question categories patterns problems = [] →
        answer_question question categories patterns problems
          = { answer := noMatchFallback, related_problems := [] }) := by
  have hun : relatedFor question categories patterns problems
      = (if (!th.isEmpty || !ph.isEmpty) = true then
          (problems.filter (fun p =>
            th.contains p.topic || p.patterns.any (fun q => ph.contains q))).map relatedOf
        else if (!diffs.isEmpty) = true then
          (problems.filter (fun p => diffs.contains p.difficulty)).map relatedOf
        else []) := by
    rw [hth, hph, hdiffs]
    simp only [relatedFor]
    rw [if_neg h]
  refine ⟨?_, ?_, ?_, ?_⟩
  · intro hne
    have hcond : (!th.isEmpty || !ph.isEmpty) = true := by
      rcases not_and_or.mp hne with h₁ | h₁
      · have he : th.isEmpty = false := by
          cases hh : th.isEmpty
          · rfl
          · exact absurd (List.isEmpty_iff.mp hh) h₁
        simp [he]
      · have he : ph.isEmpty = false := by
          cases hh : ph.isEmpty
          · rfl
          · exact absurd (List.isEmpty_iff.mp hh) h₁
        simp [he]
    rw [hun, if_pos hcond]
  · intro p
    simp [List.contains, List.elem_iff, List.any_eq_true]
  · intro h₁ h₂
    have hcond : ¬((!th.isEmpty || !ph.isEmpty) = true) := by
      simp [h₁, h₂]
    rw [hun, if_neg hcond]
    by_cases hd : diffs = []
    · simp [hd]
    · have he : diffs.isEmpty = false := by
        cases hh : diffs.isEmpty
        · rfl
        · exact absurd (List.isEmpty_iff.mp hh) hd
      rw [if_pos (by simp [he] : (!diffs.isEmpty) = true), if_neg hd]
  · intro hrel
    simp only [answer_question]
    rw [if_neg h]
    simp [hrel]

/-- C1 witness: a concrete matched-topic query and a concrete no-match
query. -/
theorem query_keyword_matching_witness :
    relatedFor "array practice" [("Array", ⟨1, [("Easy", 1)], [("Hash Map", 1)]⟩)] []
        [⟨"1", "A", "u", "Easy", "Array", ["Hash Map"], "s", []⟩]
      = [⟨"1", "A", "Easy", "Array", "u"⟩]
    ∧ answer_question "zz qq xx" [] [] []
      = { answer := noMatchFallback, related_problems := [] } := by
  have hmain := query_keyword_matching "array practice"
    [("Array", ⟨1, [("Easy", 1)], [("Hash Map", 1)]⟩)] []
    [⟨"1", "A", "u", "Easy", "Array", ["Hash Map"], "s", []⟩]
    (by decide) ["Array"] [] [] (by decide) (by decide) (by decide)
  have hz := query_keyword_matching "zz qq xx" [] [] []
    (by decide) [] [] [] (by decide) (by decide) (by decide)
  have hrelz : relatedFor "zz qq xx" [] [] [] = [] := by
    have h₃ := hz.2.2.1 rfl rfl
    simpa using h₃
  constructor
  · rw [hmain.1 (by simp)]
    decide
  · exact hz.2.2.2 hrelz

/-- C3 counterexample: a non-string question value makes `answer_question`
raise `AttributeError` (its first statement is `question.strip()`), rather
than being treated as the empty-question case. -/
theorem question_nonstring_raises :
    answerQuestionDyn (Value.int 5) [] [] [] = Except.error "AttributeError"
    ∧ answerQuestionDyn (Value.int 5) [] [] []
        ≠ Except.ok { answer := emptyGuidance, related_problems := [] } := by
  refine ⟨rfl, ?_⟩
  intro hcontra
  exact Except.noConfusion hcontra

/-- C3 amended: `answer_question` never raises for string questions, and an
empty (or, at the HTTP layer, absent — defaulted to empty) question yields
the fixed guidance answer with no related problems; a non-string question
value raises `AttributeError`. -/
theorem question_handling_amended (categories : List (String × CatEntry))
    (patterns : List (String × PatEntryOut)) (problems : List CanonProblem) :
    (∀ s : String, answerQuestionDyn (Value.str s) categories patterns problems
        = Except.ok (answer_question s categories patterns problems))
    ∧ answer_question "" categories patterns problems
        = { answer := emptyGuidance, related_problems := [] }
    ∧ ∀ v : Value, (∀ s : String, v ≠ Value.str s) →
        answerQuestionDyn v categories patterns problems = Except.error "AttributeError" := by
  refine ⟨fun s => rfl, ?_, ?_⟩
  · have hempty : pyStripLower "" = "" := by decide
    simp [answer_question, hempty]
  · intro v hv
    cases v with
    | none => rfl
    | bool b => rfl
    | int n => rfl
    | str s => exact absurd rfl (hv s)
    | list l => rfl
    | dict d => rfl

/-- C3 amended witness: the empty question and a `None` question. -/
theorem question_handling_amended_witness :
    answer_question "" [] [] [] = { answer := emptyGuidance, related_problems := [] }
    ∧ answerQuestionDyn Value.none [] [] [] = Except.error "AttributeError" := by
  have h := question_handling_amended [] [] []
  exact ⟨h.2.1, h.2.2 Value.none (fun s hs => Value.noConfusion hs)⟩

theorem pyOr_truthy (a b : Value) : (pyOr a b).truthy = (a.truthy || b.truthy) := by
  cases h : a.truthy
  · simp [pyOr, h]
  · simp [pyOr, h]

theorem synth_url_truthy (s : String) :
    (Value.str ("https://leetcode.com/problems/" ++ s ++ "/")).truthy = true := by
  show (!("https://leetcode.com/problems/" ++ s ++ "/").isEmpty) = true
  have hne : ("https://leetcode.com/problems/" ++ s ++ "/") ≠ "" := by
    intro he
    have hlen := congrArg String.length he
    rw [String.length_append, String.length_append] at hlen
    have h30 : ("https://leetcode.com/problems/" : String).length = 30 := by decide
    have h1 : ("/" : String).length = 1 := by decide
    have h0 : ("" : String).length = 0 := by decide
    omega
  cases hb : ("https://leetcode.com/problems/" ++ s ++ "/").isEmpty
  · rfl
  · exact absurd ((String.isEmpty_iff _).mp hb) hne

/-- C7: the normalizer returns `none` exactly for non-mappings, records
with no truthy title under title/name/question, or records with neither a
truthy url nor a truthy slug; an accepted record always has truthy title
and url; and a dropped record contributes nothing to the canonical
collection. -/
theorem normaliser_drop_contract (entry : Value) :
    (normalise_mcp_problem entry = Option.none ↔
      ((∀ d, entry ≠ Value.dict d)
        ∨ ((entry.get "title").truthy = false ∧ (entry.get "name").truthy = false
            ∧ (entry.get "question").truthy = false)
        ∨ ((entry.get "url").truthy = false ∧ (entry.get "slug").truthy = false
            ∧ (entry.get "titleSlug").truthy = false)))
    ∧ (∀ p, normalise_mcp_problem entry = some p → p.title.truthy = true ∧ p.url.truthy = true)
    ∧ (normalise_mcp_problem entry = Option.none →
        ∀ l₁ l₂, normaliseAll (l₁ ++ entry :: l₂) = normaliseAll (l₁ ++ l₂)) := by
  refine ⟨?_, ?_, ?_⟩
  · cases entry with
    | dict pairs =>
      have key : normalise_mcp_problem (Value.dict pairs) = Option.none ↔
          ((pyOr ((Value.dict pairs).get "title") (pyOr ((Value.dict pairs).get "name")
              ((Value.dict pairs).get "question"))).truthy = false
            ∨ (((Value.dict pairs).get "url").truthy = false
                ∧ (pyOr ((Value.dict pairs).get "slug")
                    ((Value.dict pairs).get "titleSlug")).truthy = false)) := by
        simp only [normalise_mcp_problem, apply_ite Value.truthy]
        cases htv : (pyOr ((Value.dict pairs).get "title") (pyOr ((Value.dict pairs).get "name")
            ((Value.dict pairs).get "question"))).truthy <;>
          cases huv : ((Value.dict pairs).get "url").truthy <;>
            cases hsv : (pyOr ((Value.dict pairs).get "slug")
                ((Value.dict pairs).get "titleSlug")).truthy <;>
              simp [htv, huv, hsv, synth_url_truthy]
      rw [key]
      constructor
      · rintro (ht | ⟨hu, hs⟩)
        · rw [pyOr_truthy, pyOr_truthy] at ht
          rcases Bool.or_eq_false_iff.mp ht with ⟨h₁, h₂₃⟩
          rcases Bool.or_eq_false_iff.mp h₂₃ with ⟨h₂, h₃⟩
          exact Or.inr (Or.inl ⟨h₁, h₂, h₃⟩)
        · rw [pyOr_truthy] at hs
          rcases Bool.or_eq_false_iff.mp hs with ⟨h₁, h₂⟩
          exact Or.inr (Or.inr ⟨hu, h₁, h₂⟩)
      · rintro (hd | ⟨h₁, h₂, h₃⟩ | ⟨hu, h₁, h₂⟩)
        · exact absurd rfl (hd pairs)
        · refine Or.inl ?_
          rw [pyOr_truthy, pyOr_truthy]
          simp [h₁, h₂, h₃]
        · refine Or.inr ⟨hu, ?_⟩
          rw [pyOr_truthy]
          simp [h₁, h₂]
    | none => exact iff_of_true rfl (Or.inl (fun d hd => Value.noConfusion hd))
    | bool b => exact iff_of_true rfl (Or.inl (fun d hd => Value.noConfusion hd))
    | int n => exact iff_of_true rfl (Or.inl (fun d hd => Value.noConfusion hd))
    | str s => exact iff_of_true rfl (Or.inl (fun d hd => Value.noConfusion hd))
    | list l => exact iff_of_true rfl (Or.inl (fun d hd => Value.noConfusion hd))
  · intro p hp
    cases entry with
    | dict pairs =>
      simp only [normalise_mcp_problem] at hp
      split at hp
      all_goals
        split at hp
        next hc => exact Option.noConfusion hp
        next hc =>
          have hrec := Option.some_inj.mp hp
          simp only [Bool.not_eq_true, Bool.or_eq_false_iff] at hc
          rw [← hrec]
          exact ⟨by simpa using hc.1, by simpa using hc.2⟩
    | none => exact Option.noConfusion hp
    | bool b => exact Option.noConfusion hp
    | int n => exact Option.noConfusion hp
    | str s => exact Option.noConfusion hp
    | list l => exact Option.noConfusion hp
  · intro hn l₁ l₂
    simp [normaliseAll, List.filterMap_append, List.filterMap_cons, hn]

/-- C7 witness: a record with a slug but no title is dropped and
contributes nothing to the canonical collection. -/
theorem normaliser_drop_contract_witness :
    normalise_mcp_problem (Value.dict [("slug", Value.str "s")]) = Option.none
    ∧ normaliseAll [Value.dict [("slug", Value.str "s")],
          Value.dict [("title", Value.str "T"), ("url", Value.str "u")]]
        = normaliseAll [Value.dict [("title", Value.str "T"), ("url", Value.str "u")]] := by
  have h := normaliser_drop_contract (Value.dict [("slug", Value.str "s")])
  have hnone : normalise_mcp_problem (Value.dict [("slug", Value.str "s")]) = Option.none :=
    h.1.mpr (Or.inr (Or.inl ⟨rfl, rfl, rfl⟩))
  exact ⟨hnone, h.2.2 hnone [] [Value.dict [("title", Value.str "T"), ("url", Value.str "u")]]⟩

/-- C8: the literal Two Sum record normalises to exactly the expected
canonical problem (id from slug, synthesized url, default topic and
summary). -/
theorem two_sum_normalisation :
    normalise_mcp_problem (Value.dict [("title", Value.str "Two Sum"),
        ("slug", Value.str "two-sum"), ("difficulty", Value.str "Easy"),
        ("patterns", Value.list [Value.str "Hash Map"])])
      = some
        { id := Value.str "two-sum"
          title := Value.str "Two Sum"
          url := Value.str "https://leetcode.com/problems/two-sum/"
          difficulty := Value.str "Easy"
          topic := "General"
          patterns := ["Hash Map"]
          summary := Value.str "Generated from leetcode-mcp-server data."
          key_steps := [] } := rfl

/-- C9 counterexample: an arbitrary difficulty string is passed through
unvalidated, so the difficulty of an accepted record need not be one of
Easy/Medium/Hard/Unknown. -/
theorem difficulty_passthrough_counterexample :
    (normalise_mcp_problem (Value.dict [("title", Value.str "T"), ("slug", Value.str "t"),
        ("difficulty", Value.str "Insane")])).map NormProblem.difficulty
      = some (Value.str "Insane")
    ∧ Value.str "Insane" ≠ Value.str "Easy" ∧ Value.str "Insane" ≠ Value.str "Medium"
    ∧ Value.str "Insane" ≠ Value.str "Hard" ∧ Value.str "Insane" ≠ Value.str "Unknown" := by
  refine ⟨rfl, ?_, ?_, ?_, ?_⟩ <;>
    exact fun h => absurd (by injection h) (by decide)

/-- C9 amended: the difficulty of an accepted record is the first truthy
value among the record's difficulty/level/difficultyLevel keys, defaulting
to the string Unknown when none is truthy; it is always truthy, but it is
not constrained to the set Easy/Medium/Hard/Unknown. -/
theorem difficulty_field_amended (entry : Value) (p : NormProblem)
    (h : normalise_mcp_problem entry = some p) :
    p.difficulty = pyOr (entry.get "difficulty") (pyOr (entry.get "level")
        (pyOr (entry.get "difficultyLevel") (Value.str "Unknown")))
    ∧ (((entry.get "difficulty").truthy = false ∧ (entry.get "level").truthy = false
        ∧ (entry.get "difficultyLevel").truthy = false) → p.difficulty = Value.str "Unknown")
    ∧ p.difficulty.truthy = true := by
  cases entry with
  | dict pairs =>
    simp only [normalise_mcp_problem] at h
    split at h
    all_goals
      split at h
      next hc => exact Option.noConfusion h
      next hc =>
        have hrec := Option.some_inj.mp h
        refine ⟨?_, ?_, ?_⟩
        · rw [← hrec]
        · rintro ⟨h₁, h₂, h₃⟩
          rw [← hrec]
          show pyOr ((Value.dict pairs).get "difficulty") (pyOr ((Value.dict pairs).get "level")
            (pyOr ((Value.dict pairs).get "difficultyLevel") (Value.str "Unknown")))
              = Value.str "Unknown"
          simp [pyOr, h₁, h₂, h₃]
        · rw [← hrec]
          show (pyOr ((Value.dict pairs).get "difficulty") (pyOr ((Value.dict pairs).get "level")
            (pyOr ((Value.dict pairs).get "difficultyLevel") (Value.str "Unknown")))).truthy = true
          have hu : (Value.str "Unknown").truthy = true := by decide
          rw [pyOr_truthy, pyOr_truthy, pyOr_truthy, hu]
          simp
  | none => exact Option.noConfusion h
  | bool b => exact Option.noConfusion h
  | int n => exact Option.noConfusion h
  | str s => exact Option.noConfusion h
  | list l => exact Option.noConfusion h

/-- C9 amended witness: a record with no difficulty key gets the Unknown
default. -/
theorem difficulty_field_amended_witness :
    (⟨Value.str "t", Value.str "T", Value.str "https://leetcode.com/problems/t/",
        Value.str "Unknown", "General", ["General Strategy"],
        Value.str "Generated from leetcode-mcp-server data.", []⟩ : NormProblem).difficulty
      = Value.str "Unknown"
    ∧ (⟨Value.str "t", Value.str "T", Value.str "https://leetcode.com/problems/t/",
        Value.str "Unknown", "General", ["General Strategy"],
        Value.str "Generated from leetcode-mcp-server data.", []⟩ : NormProblem).difficulty.truthy
      = true := by
  have h := difficulty_field_amended (Value.dict [("title", Value.str "T"), ("slug", Value.str "t")])
    ⟨Value.str "t", Value.str "T", Value.str "https://leetcode.com/problems/t/",
      Value.str "Unknown", "General", ["General Strategy"],
      Value.str "Generated from leetcode-mcp-server data.", []⟩ rfl
  exact ⟨h.2.1 ⟨rfl, rfl, rfl⟩, h.2.2⟩
